import Mathlib

/-!
# Shallow embedding of `src/game_iterator.rs` (piston game-loop scheduler)

The source is a pull-based game-loop iterator (`GameIterator`) over a window
backend (`GameWindow` trait, the "Window Collaborator"): on each `next()` call
it loops through an internal state machine until one arm yields a `GameEvent`
or the sequence ends.

Modelling conventions:
* Rust `u64` timestamps and intervals are `Nat` (the claims' hypotheses keep
  every subtraction in range, where `Nat` and `u64` agree); the one cast where
  truncation matters, `(next_event - current_time) as i32` in the sleep call,
  is modelled explicitly by `i32ofU64`.
* Rust `f64` payloads (`ext_dt`, `dt`, mouse coordinates) are `ℚ`: the claims
  are about the computed expressions and their signs, which real-valued
  division preserves.
* Key and mouse-button codes are external enumerations used opaquely by the
  scheduler; they are modelled as `Nat`.
* The Window Collaborator is split into pure oracles (`Window`: the results of
  successive `should_close`, `get_size` and `precise_time_ns` calls, indexed
  by call count) and an observable side-effect state (`WState`: the pending
  input queue consumed by `poll_event`, the count of `swap_buffers` calls, and
  the log of requested sleep durations).
* `Iterator::next`'s inner `loop` is `nextFuel`: it iterates the single-arm
  step function `step` until an arm returns; fuel makes it total.
-/

/-- Input events returned by the Window Collaborator's `poll_event`
(the `event` module interface, as matched in `GameIterator::next` and
described in spec §6): non-blocking, `NoEvent` when the queue is empty. -/
inductive InputEvent where
  | KeyPressed (key : Nat)
  | KeyReleased (key : Nat)
  | MouseButtonPressed (button : Nat)
  | MouseButtonReleased (button : Nat)
  | MouseMoved (x y : ℚ) (relative_move : Option (ℚ × ℚ))
  | MouseScrolled (x y : ℚ)
  | NoEvent
deriving Repr, DecidableEq

/-- Render argument (`RenderArgs`). -/
structure RenderArgs where
  ext_dt : ℚ
  width : Nat
  height : Nat
deriving Repr, DecidableEq

/-- Update argument (`UpdateArgs`). -/
structure UpdateArgs where
  dt : ℚ
deriving Repr, DecidableEq

/-- Key press arguments (`KeyPressArgs`). -/
structure KeyPressArgs where
  key : Nat
deriving Repr, DecidableEq

/-- Key release arguments (`KeyReleaseArgs`). -/
structure KeyReleaseArgs where
  key : Nat
deriving Repr, DecidableEq

/-- Mouse press arguments (`MousePressArgs`). -/
structure MousePressArgs where
  button : Nat
deriving Repr, DecidableEq

/-- Mouse release arguments (`MouseReleaseArgs`). -/
structure MouseReleaseArgs where
  button : Nat
deriving Repr, DecidableEq

/-- Mouse move arguments (`MouseMoveArgs`). -/
structure MouseMoveArgs where
  x : ℚ
  y : ℚ
deriving Repr, DecidableEq

/-- Mouse relative move arguments (`MouseRelativeMoveArgs`). -/
structure MouseRelativeMoveArgs where
  dx : ℚ
  dy : ℚ
deriving Repr, DecidableEq

/-- Mouse scroll arguments (`MouseScrollArgs`). -/
structure MouseScrollArgs where
  x : ℚ
  y : ℚ
deriving Repr, DecidableEq

/-- The different game events (`GameEvent`). -/
inductive GameEvent where
  | Render (args : RenderArgs)
  | Update (args : UpdateArgs)
  | KeyPress (args : KeyPressArgs)
  | KeyRelease (args : KeyReleaseArgs)
  | MousePress (args : MousePressArgs)
  | MouseRelease (args : MouseReleaseArgs)
  | MouseMove (args : MouseMoveArgs)
  | MouseRelativeMove (args : MouseRelativeMoveArgs)
  | MouseScroll (args : MouseScrollArgs)
deriving Repr, DecidableEq

/-- Internal scheduler phases (`GameIteratorState`); the pending relative
mouse delta lives only in the `MouseRelativeMoveState` payload. -/
inductive GameIteratorState where
  | RenderState
  | SwapBuffersState
  | UpdateLoopState
  | HandleEventsState
  | MouseRelativeMoveState (dx dy : ℚ)
  | UpdateState
deriving Repr, DecidableEq

/-- Settings for the game loop behavior (`GameIteratorSettings`). -/
structure GameIteratorSettings where
  updates_per_second : Nat
  max_frames_per_second : Nat
deriving Repr, DecidableEq

/-- The mutable fields of `GameIterator` (the borrowed `game_window` is
modelled separately as `Window`/`WState`). -/
structure GameIterator where
  state : GameIteratorState
  last_update : Nat
  last_frame : Nat
  dt_update_in_ns : Nat
  dt_frame_in_ns : Nat
  dt : ℚ
deriving Repr, DecidableEq

/-- `static billion: u64 = 1_000_000_000`. -/
def billion : Nat := 1000000000

/-- `GameIterator::new`.  `start` is the `time::precise_time_ns()` sample
taken at construction.  Rust `u64` division panics on a zero divisor, so a
zero-valued configured rate is modelled as `none`; otherwise the fields are
exactly the source's initializers. -/
def GameIterator.new (settings : GameIteratorSettings) (start : Nat) :
    Option GameIterator :=
  if settings.updates_per_second = 0 ∨ settings.max_frames_per_second = 0 then
    none
  else
    some
      { state := .RenderState
        last_update := start
        last_frame := start
        dt_update_in_ns := billion / settings.updates_per_second
        dt_frame_in_ns := billion / settings.max_frames_per_second
        dt := 1 / (settings.updates_per_second : ℚ) }

/-- Pure oracles of the Window Collaborator: the result of its `n`-th
`should_close`, `get_size` and `time::precise_time_ns` call respectively. -/
structure Window where
  shouldCloseFn : Nat → Bool
  getSizeFn : Nat → Nat × Nat
  clockFn : Nat → Nat

/-- Observable interaction state: call counters for the pure oracles, the
pending input queue drained by `poll_event`, the number of `swap_buffers`
calls so far, and the log of durations passed to `sleep` (after the source's
`as i32` cast). -/
structure WState where
  nClose : Nat
  nSize : Nat
  nClock : Nat
  polls : List InputEvent
  swaps : Nat
  sleeps : List Int
deriving Repr, DecidableEq

/-- `poll_event`: non-blocking; pops the head of the pending queue, or
returns `NoEvent` when the queue is empty. -/
def pollEvent (ws : WState) : InputEvent × WState :=
  match ws.polls with
  | [] => (.NoEvent, ws)
  | e :: rest => (e, { ws with polls := rest })

/-- A scheduler together with its window-interaction state. -/
structure Machine where
  it : GameIterator
  ws : WState
deriving Repr, DecidableEq

/-- Result of one iteration of the inner `loop` in `GameIterator::next`:
fall through to the next iteration, `return Some(e)`, or `return None`. -/
inductive StepResult where
  | cont
  | yield (e : GameEvent)
  | done
deriving Repr, DecidableEq

/-- Rust's `as i32` cast from `u64`: truncate to 32 bits, interpret as
two's complement. -/
def i32ofU64 (n : Nat) : Int :=
  let m : Nat := n % 2 ^ 32
  if m < 2 ^ 31 then (m : Int) else (m : Int) - 2 ^ 32

/-- One iteration of the `loop { match self.state { ... } }` body of
`GameIterator::next`, translated arm by arm from the source. -/
def step (win : Window) (m : Machine) : Machine × StepResult :=
  match m.it.state with
  | .RenderState =>
    -- `if self.game_window.should_close() { return None; }`
    if win.shouldCloseFn m.ws.nClose then
      ({ m with ws := { m.ws with nClose := m.ws.nClose + 1 } }, .done)
    else
      -- `let start_render = time::precise_time_ns(); self.last_frame = start_render;`
      let start_render := win.clockFn m.ws.nClock
      let ws1 : WState :=
        { m.ws with nClose := m.ws.nClose + 1, nClock := m.ws.nClock + 1,
                    nSize := m.ws.nSize + 1 }
      let sz := win.getSizeFn m.ws.nSize
      let it1 : GameIterator := { m.it with last_frame := start_render }
      if sz.1 ≠ 0 ∧ sz.2 ≠ 0 then
        (⟨{ it1 with state := .SwapBuffersState }, ws1⟩,
         .yield (.Render
           { ext_dt := ((start_render - m.it.last_update : Nat) : ℚ) / (billion : ℚ)
             width := sz.1
             height := sz.2 }))
      else
        (⟨{ it1 with state := .UpdateLoopState }, ws1⟩, .cont)
  | .SwapBuffersState =>
    (⟨{ m.it with state := .UpdateLoopState },
      { m.ws with swaps := m.ws.swaps + 1 }⟩, .cont)
  | .UpdateLoopState =>
    let current_time := win.clockFn m.ws.nClock
    let ws1 : WState := { m.ws with nClock := m.ws.nClock + 1 }
    let next_frame := m.it.last_frame + m.it.dt_frame_in_ns
    let next_update := m.it.last_update + m.it.dt_update_in_ns
    let next_event := min next_frame next_update
    if next_event > current_time then
      -- `sleep(Duration::nanoseconds((next_event - current_time) as i32))`
      (⟨m.it, { ws1 with
                sleeps := ws1.sleeps ++ [i32ofU64 (next_event - current_time)] }⟩,
       .cont)
    else if next_event = next_frame then
      (⟨{ m.it with state := .RenderState }, ws1⟩, .cont)
    else
      (⟨{ m.it with state := .HandleEventsState }, ws1⟩, .cont)
  | .HandleEventsState =>
    let pe := pollEvent m.ws
    match pe.1 with
    | .KeyPressed key =>
      (⟨m.it, pe.2⟩, .yield (.KeyPress { key := key }))
    | .KeyReleased key =>
      (⟨m.it, pe.2⟩, .yield (.KeyRelease { key := key }))
    | .MouseButtonPressed mouse_button =>
      (⟨m.it, pe.2⟩, .yield (.MousePress { button := mouse_button }))
    | .MouseButtonReleased mouse_button =>
      (⟨m.it, pe.2⟩, .yield (.MouseRelease { button := mouse_button }))
    | .MouseMoved x y relative_move =>
      let it1 : GameIterator :=
        match relative_move with
        | some d => { m.it with state := .MouseRelativeMoveState d.1 d.2 }
        | none => m.it
      (⟨it1, pe.2⟩, .yield (.MouseMove { x := x, y := y }))
    | .MouseScrolled x y =>
      (⟨m.it, pe.2⟩, .yield (.MouseScroll { x := x, y := y }))
    | .NoEvent =>
      (⟨{ m.it with state := .UpdateState }, pe.2⟩, .cont)
  | .MouseRelativeMoveState dx dy =>
    (⟨{ m.it with state := .HandleEventsState }, m.ws⟩,
     .yield (.MouseRelativeMove { dx := dx, dy := dy }))
  | .UpdateState =>
    (⟨{ m.it with state := .UpdateLoopState,
                  last_update := m.it.last_update + m.it.dt_update_in_ns },
      m.ws⟩,
     .yield (.Update { dt := m.it.dt }))

/-- One pull of `Iterator::next`: iterate `step` until an arm returns.
The outer `none` means the fuel ran out before any arm returned;
`some none` is the source's `return None` (end of sequence), and
`some (some e)` its `return Some(e)`. -/
def nextFuel (win : Window) : Nat → Machine → Machine × Option (Option GameEvent)
  | 0, m => (m, none)
  | fuel + 1, m =>
    match step win m with
    | (m', .yield e) => (m', some (some e))
    | (m', .done) => (m', some none)
    | (m', .cont) => nextFuel win fuel m'

/-- Run `n` pulls of `next` (each with the given fuel), collecting the
pull results in order. -/
def pullN (win : Window) (fuel : Nat) :
    Nat → Machine → Machine × List (Option (Option GameEvent))
  | 0, m => (m, [])
  | n + 1, m =>
    let p := nextFuel win fuel m
    let r := pullN win fuel n p.1
    (r.1, p.2 :: r.2)

/-- Run `n` iterations of the fine-grained `step`, collecting every yielded
event in order (crossing pull boundaries: each `yield`/`done` ends one pull
and the following step begins the next). -/
def stepRun (win : Window) : Nat → Machine → Machine × List GameEvent
  | 0, m => (m, [])
  | n + 1, m =>
    let p := step win m
    let r := stepRun win n p.1
    (r.1,
     (match p.2 with
      | .yield e => [e]
      | _ => []) ++ r.2)

/-- The events the scheduler emits for one polled input notification:
every input maps to one event, except a mouse move carrying a relative
delta, which is followed by the staged `MouseRelativeMove`. -/
def expandInput : InputEvent → List GameEvent
  | .KeyPressed key => [.KeyPress { key := key }]
  | .KeyReleased key => [.KeyRelease { key := key }]
  | .MouseButtonPressed b => [.MousePress { button := b }]
  | .MouseButtonReleased b => [.MouseRelease { button := b }]
  | .MouseMoved x y none => [.MouseMove { x := x, y := y }]
  | .MouseMoved x y (some d) =>
    [.MouseMove { x := x, y := y }, .MouseRelativeMove { dx := d.1, dy := d.2 }]
  | .MouseScrolled x y => [.MouseScroll { x := x, y := y }]
  | .NoEvent => []

/-- The events the scheduler emits for a whole queue of pending input
notifications, in poll order. -/
def expandQueue : List InputEvent → List GameEvent
  | [] => []
  | e :: rest => expandInput e ++ expandQueue rest

/-! ## Helper lemmas -/

/-- The `as i32` cast is the identity below `2^31`. -/
lemma i32ofU64_small (n : Nat) (h : n < 2 ^ 31) : i32ofU64 n = (n : Int) := by
  unfold i32ofU64
  have h32 : n % 2 ^ 32 = n := Nat.mod_eq_of_lt (lt_trans h (by norm_num))
  simp only [h32]
  rw [if_pos h]

/-- No arm of the state machine changes the derived timing constants. -/
lemma step_preserves_consts (win : Window) (m : Machine) :
    (step win m).1.it.dt_update_in_ns = m.it.dt_update_in_ns ∧
    (step win m).1.it.dt_frame_in_ns = m.it.dt_frame_in_ns ∧
    (step win m).1.it.dt = m.it.dt := by
  obtain ⟨⟨st, lu, lf, du, df, dq⟩, n1, n2, n3, polls, sw, sl⟩ := m
  cases st with
  | RenderState => simp only [step]; split_ifs <;> simp
  | SwapBuffersState => simp [step]
  | UpdateLoopState => simp only [step]; split_ifs <;> simp
  | HandleEventsState =>
    cases polls with
    | nil => simp [step, pollEvent]
    | cons e rest => cases e <;> simp [step, pollEvent] <;> split <;> simp
  | MouseRelativeMoveState dx dy => simp [step]
  | UpdateState => simp [step]

/-- Each arm either leaves `last_update` unchanged and does not yield an
`Update` event, or adds exactly one `dt_update_in_ns` and yields
`Update{dt}`. -/
lemma step_last_update_dichotomy (win : Window) (m : Machine) :
    ((step win m).1.it.last_update = m.it.last_update ∧
      ∀ a : UpdateArgs, (step win m).2 ≠ .yield (.Update a)) ∨
    ((step win m).1.it.last_update = m.it.last_update + m.it.dt_update_in_ns ∧
      (step win m).2 = .yield (.Update { dt := m.it.dt })) := by
  obtain ⟨⟨st, lu, lf, du, df, dq⟩, n1, n2, n3, polls, sw, sl⟩ := m
  cases st with
  | RenderState => left; simp only [step]; split_ifs <;> simp
  | SwapBuffersState => left; simp [step]
  | UpdateLoopState => left; simp only [step]; split_ifs <;> simp
  | HandleEventsState =>
    left
    cases polls with
    | nil => simp [step, pollEvent]
    | cons e rest => cases e <;> simp [step, pollEvent] <;> split <;> simp
  | MouseRelativeMoveState dx dy => left; simp [step]
  | UpdateState => right; simp [step]

/-! ## Claims -/

/-- C9: construction derives the tick durations by unguarded `u64` divisions
(`billion / updates_per_second`, `billion / max_frames_per_second`) and the
float division `1.0 / updates_per_second`; when both configured rates are
nonzero every division is well-defined and construction succeeds with exactly
those values, while a zero-valued rate makes construction hit the
division-by-zero panic (modelled as `none`) — the scheduler does not defend
against it. -/
theorem new_division_guard (settings : GameIteratorSettings) (start : Nat) :
    (settings.updates_per_second ≠ 0 → settings.max_frames_per_second ≠ 0 →
      GameIterator.new settings start =
        some { state := .RenderState
               last_update := start
               last_frame := start
               dt_update_in_ns := billion / settings.updates_per_second
               dt_frame_in_ns := billion / settings.max_frames_per_second
               dt := 1 / (settings.updates_per_second : ℚ) }) ∧
    ((settings.updates_per_second = 0 ∨ settings.max_frames_per_second = 0) →
      GameIterator.new settings start = none) := by
  constructor
  · intro hU hF
    simp [GameIterator.new, hU, hF]
  · intro h
    simp [GameIterator.new, h]

/-- Witness for C9 at `updates_per_second = 120`, `max_frames_per_second = 60`,
`start = 0`, and at the zero-rate configuration `⟨0, 60⟩`. -/
theorem new_division_guard_witness :
    GameIterator.new ⟨120, 60⟩ 0 =
      some { state := .RenderState
             last_update := 0
             last_frame := 0
             dt_update_in_ns := 8333333
             dt_frame_in_ns := 16666666
             dt := 1 / 120 } ∧
    GameIterator.new ⟨0, 60⟩ 0 = none := by
  constructor
  · have h := (new_division_guard ⟨120, 60⟩ 0).1 (by decide) (by decide)
    rw [h]
    norm_num [billion]
  · exact (new_division_guard ⟨0, 60⟩ 0).2 (Or.inl rfl)

/-- C7: in the `UpdateLoop` state, once
`next_event = min(next_frame, next_update)` has arrived (is not in the
future), no event is emitted this iteration; the next state is `Render`
exactly when `next_event = next_frame` — in particular the frame wins a tie
`next_frame = next_update` — and `HandleEvents` otherwise. -/
theorem updateLoop_dispatch (win : Window) (lu lf du df : Nat) (q : ℚ)
    (ws : WState)
    (harrived : min (lf + df) (lu + du) ≤ win.clockFn ws.nClock) :
    (step win ⟨⟨.UpdateLoopState, lu, lf, du, df, q⟩, ws⟩).2 = .cont ∧
    (min (lf + df) (lu + du) = lf + df →
      (step win ⟨⟨.UpdateLoopState, lu, lf, du, df, q⟩, ws⟩).1.it.state =
        .RenderState) ∧
    (min (lf + df) (lu + du) ≠ lf + df →
      (step win ⟨⟨.UpdateLoopState, lu, lf, du, df, q⟩, ws⟩).1.it.state =
        .HandleEventsState) ∧
    (lf + df = lu + du →
      (step win ⟨⟨.UpdateLoopState, lu, lf, du, df, q⟩, ws⟩).1.it.state =
        .RenderState) := by
  have hnot : ¬ (win.clockFn ws.nClock < min (lf + df) (lu + du)) :=
    not_lt.mpr harrived
  refine ⟨?_, ?_, ?_, ?_⟩
  · simp only [step, gt_iff_lt, if_neg hnot]
    split_ifs <;> rfl
  · intro h
    simp only [step, gt_iff_lt, if_neg hnot, if_pos h]
  · intro h
    simp only [step, gt_iff_lt, if_neg hnot, if_neg h]
  · intro h
    have hm : min (lf + df) (lu + du) = lf + df := by
      rw [← h, min_self]
    simp only [step, gt_iff_lt, if_neg hnot, if_pos hm]

/-- Witness for C7: a tie `next_frame = next_update = 150` that has arrived
(clock 200) advances to `Render`. -/
theorem updateLoop_dispatch_witness :
    (step ⟨fun _ => false, fun _ => (320, 240), fun _ => 200⟩
        ⟨⟨.UpdateLoopState, 50, 50, 100, 100, 1 / 120⟩, ⟨0, 0, 0, [], 0, []⟩⟩).2 =
      .cont ∧
    (step ⟨fun _ => false, fun _ => (320, 240), fun _ => 200⟩
        ⟨⟨.UpdateLoopState, 50, 50, 100, 100, 1 / 120⟩,
         ⟨0, 0, 0, [], 0, []⟩⟩).1.it.state = .RenderState := by
  have h := updateLoop_dispatch ⟨fun _ => false, fun _ => (320, 240), fun _ => 200⟩
    50 50 100 100 (1 / 120) ⟨0, 0, 0, [], 0, []⟩ (by decide)
  exact ⟨h.1, h.2.2.2 rfl⟩

/-- C2: in the `UpdateLoop` state, when
`next_event = min(last_frame + dt_frame_in_ns, last_update + dt_update_in_ns)`
is strictly in the future, the step requests a sleep of exactly
`next_event - current_time` nanoseconds — the `as i32` cast in the source
loses nothing and the duration is never negative — and otherwise changes
nothing (the state is re-entered).  The hypotheses are the operating
conditions: the clock is monotone (`last_frame` was sampled no later than the
current time) and `dt_frame_in_ns ≤ billion`, which holds for every
constructed iterator since `billion / max_frames_per_second ≤ billion`. -/
theorem pacing_sleep_exact (win : Window) (lu lf du df : Nat) (q : ℚ)
    (ws : WState)
    (hmono : lf ≤ win.clockFn ws.nClock)
    (hdf : df ≤ billion)
    (hfuture : win.clockFn ws.nClock < min (lf + df) (lu + du)) :
    step win ⟨⟨.UpdateLoopState, lu, lf, du, df, q⟩, ws⟩ =
      (⟨⟨.UpdateLoopState, lu, lf, du, df, q⟩,
        { ws with
          nClock := ws.nClock + 1,
          sleeps := ws.sleeps ++
            [((min (lf + df) (lu + du) : Int) - (win.clockFn ws.nClock : Int))] }⟩,
       .cont) ∧
    0 ≤ ((min (lf + df) (lu + du) : Int) - (win.clockFn ws.nClock : Int)) := by
  have hle : win.clockFn ws.nClock ≤ min (lf + df) (lu + du) := le_of_lt hfuture
  have hsmall : min (lf + df) (lu + du) - win.clockFn ws.nClock < 2 ^ 31 := by
    have h1 : min (lf + df) (lu + du) ≤ lf + df := min_le_left _ _
    have h2 : min (lf + df) (lu + du) - win.clockFn ws.nClock ≤ billion := by
      omega
    have : billion < 2 ^ 31 := by norm_num [billion]
    omega
  have hcast : i32ofU64 (min (lf + df) (lu + du) - win.clockFn ws.nClock) =
      ((min (lf + df) (lu + du) : Int) - (win.clockFn ws.nClock : Int)) := by
    rw [i32ofU64_small _ hsmall]
    omega
  constructor
  · simp only [step, gt_iff_lt, if_pos hfuture, hcast]
  · omega

/-- Witness for C2: clock 100, `next_frame = 250`, `next_update = 150`; the
logged sleep duration is exactly 50 ns. -/
theorem pacing_sleep_exact_witness :
    step ⟨fun _ => false, fun _ => (320, 240), fun _ => 100⟩
        ⟨⟨.UpdateLoopState, 50, 50, 100, 200, 1 / 120⟩, ⟨0, 0, 0, [], 0, []⟩⟩ =
      (⟨⟨.UpdateLoopState, 50, 50, 100, 200, 1 / 120⟩,
        ⟨0, 0, 1, [], 0, [((150 : Int) - 100)]⟩⟩, .cont) ∧
    (0 : Int) ≤ (150 : Int) - 100 := by
  have h := pacing_sleep_exact ⟨fun _ => false, fun _ => (320, 240), fun _ => 100⟩
    50 50 100 200 (1 / 120) ⟨0, 0, 0, [], 0, []⟩ (by decide)
    (by norm_num [billion]) (by decide)
  constructor
  · rw [h.1]
    norm_num
  · norm_num

/-- C3 counterexample: a Render-state cycle with reported size `(0, 240)`
(zero width) emits nothing and advances to `UpdateLoop`, yet `last_frame`
changes from 5 to the current clock sample 100 — it is not left unchanged as
the claim states. -/
theorem render_skip_updates_last_frame_counterexample :
    (step ⟨fun _ => false, fun _ => (0, 240), fun _ => 100⟩
        ⟨⟨.RenderState, 50, 5, 8333333, 16666666, 1 / 120⟩,
         ⟨0, 0, 0, [], 0, []⟩⟩).2 = .cont ∧
    (step ⟨fun _ => false, fun _ => (0, 240), fun _ => 100⟩
        ⟨⟨.RenderState, 50, 5, 8333333, 16666666, 1 / 120⟩,
         ⟨0, 0, 0, [], 0, []⟩⟩).1.it.state = .UpdateLoopState ∧
    (step ⟨fun _ => false, fun _ => (0, 240), fun _ => 100⟩
        ⟨⟨.RenderState, 50, 5, 8333333, 16666666, 1 / 120⟩,
         ⟨0, 0, 0, [], 0, []⟩⟩).1.it.last_frame = 100 ∧
    (100 : Nat) ≠ 5 := by
  refine ⟨rfl, rfl, rfl, by decide⟩

/-- C3 (amended): `last_frame` is set to the current clock sample on every
Render-state cycle that passes the close check, whether or not a `Render`
event is emitted — in particular a zero-dimension cycle emits nothing and
advances directly to `UpdateLoop`, but still sets `last_frame := now`.  In
every other state, and on a close-check that returns true, `last_frame` is
unchanged. -/
theorem last_frame_set_on_every_render_attempt (win : Window) (m : Machine) :
    (m.it.state = .RenderState → win.shouldCloseFn m.ws.nClose = false →
      (step win m).1.it.last_frame = win.clockFn m.ws.nClock) ∧
    (m.it.state = .RenderState → win.shouldCloseFn m.ws.nClose = false →
      ((win.getSizeFn m.ws.nSize).1 = 0 ∨ (win.getSizeFn m.ws.nSize).2 = 0) →
      (step win m).2 = .cont ∧ (step win m).1.it.state = .UpdateLoopState) ∧
    (m.it.state = .RenderState → win.shouldCloseFn m.ws.nClose = true →
      (step win m).1.it.last_frame = m.it.last_frame) ∧
    (m.it.state ≠ .RenderState →
      (step win m).1.it.last_frame = m.it.last_frame) := by
  obtain ⟨⟨st, lu, lf, du, df, dq⟩, n1, n2, n3, polls, sw, sl⟩ := m
  refine ⟨?_, ?_, ?_, ?_⟩
  · intro hst hc
    replace hst : st = GameIteratorState.RenderState := hst
    subst hst
    simp only [step, hc, Bool.false_eq_true, if_false]
    split_ifs <;> rfl
  · intro hst hc hz
    replace hst : st = GameIteratorState.RenderState := hst
    subst hst
    have hnz : ¬ ((win.getSizeFn n2).1 ≠ 0 ∧ (win.getSizeFn n2).2 ≠ 0) := by
      tauto
    simp only [step, hc, Bool.false_eq_true, if_false, if_neg hnz]
    constructor <;> trivial
  · intro hst hc
    replace hst : st = GameIteratorState.RenderState := hst
    subst hst
    simp [step, hc]
  · intro hst
    replace hst : st ≠ GameIteratorState.RenderState := hst
    cases st with
    | RenderState => exact absurd rfl hst
    | SwapBuffersState => simp [step]
    | UpdateLoopState => simp only [step]; split_ifs <;> rfl
    | HandleEventsState =>
      cases polls with
      | nil => simp [step, pollEvent]
      | cons e rest => cases e <;> simp [step, pollEvent] <;> split <;> simp
    | MouseRelativeMoveState dx dy => simp [step]
    | UpdateState => simp [step]

/-- Witness for C3's amended theorem at a concrete zero-width cycle. -/
theorem last_frame_set_on_every_render_attempt_witness :
    (step ⟨fun _ => false, fun _ => (0, 240), fun _ => 100⟩
        ⟨⟨.RenderState, 50, 5, 8333333, 16666666, 1 / 120⟩,
         ⟨0, 0, 0, [], 0, []⟩⟩).1.it.last_frame = 100 ∧
    ((step ⟨fun _ => false, fun _ => (0, 240), fun _ => 100⟩
        ⟨⟨.RenderState, 50, 5, 8333333, 16666666, 1 / 120⟩,
         ⟨0, 0, 0, [], 0, []⟩⟩).2 = .cont ∧
     (step ⟨fun _ => false, fun _ => (0, 240), fun _ => 100⟩
        ⟨⟨.RenderState, 50, 5, 8333333, 16666666, 1 / 120⟩,
         ⟨0, 0, 0, [], 0, []⟩⟩).1.it.state = .UpdateLoopState) := by
  have h := last_frame_set_on_every_render_attempt
    ⟨fun _ => false, fun _ => (0, 240), fun _ => 100⟩
    ⟨⟨.RenderState, 50, 5, 8333333, 16666666, 1 / 120⟩, ⟨0, 0, 0, [], 0, []⟩⟩
  exact ⟨h.1 rfl rfl, h.2.1 rfl rfl (Or.inl rfl)⟩

/-- C5: every `Render` event is emitted from the `Render` arm, with
`ext_dt = (start_render - last_update) / 1e9` where `start_render` is the
clock sample taken at the start of that step (which also becomes the new
`last_frame`); under the monotone-clock hypothesis that the sample is at or
after `last_update`, the subtraction is exact and `ext_dt ≥ 0`. -/
theorem render_ext_dt_nonneg (win : Window) (m m2 : Machine) (a : RenderArgs)
    (hyield : step win m = (m2, .yield (.Render a)))
    (hmono : m.it.last_update ≤ win.clockFn m.ws.nClock) :
    a.ext_dt = ((win.clockFn m.ws.nClock : ℚ) - (m.it.last_update : ℚ)) /
        (billion : ℚ) ∧
    0 ≤ a.ext_dt ∧
    m2.it.last_frame = win.clockFn m.ws.nClock := by
  obtain ⟨⟨st, lu, lf, du, df, dq⟩, n1, n2, n3, polls, sw, sl⟩ := m
  replace hmono : lu ≤ win.clockFn n3 := hmono
  cases st with
  | RenderState =>
    by_cases hc : win.shouldCloseFn n1
    · simp [step, hc] at hyield
    · by_cases hsz : (win.getSizeFn n2).1 ≠ 0 ∧ (win.getSizeFn n2).2 ≠ 0
      · simp only [step, hc, Bool.false_eq_true, if_false, if_pos hsz] at hyield
        obtain ⟨hm, he⟩ := Prod.mk.injEq .. ▸ hyield
        replace he := (StepResult.yield.injEq .. ▸ he)
        replace he := (GameEvent.Render.injEq .. ▸ he)
        subst he
        subst hm
        refine ⟨?_, ?_, rfl⟩
        · show ((win.clockFn n3 - lu : Nat) : ℚ) / (billion : ℚ) = _
          rw [Nat.cast_sub hmono]
        · show 0 ≤ ((win.clockFn n3 - lu : Nat) : ℚ) / (billion : ℚ)
          apply div_nonneg (Nat.cast_nonneg _)
          norm_num [billion]
      · simp [step, hc, hsz] at hyield
  | SwapBuffersState => simp [step] at hyield
  | UpdateLoopState =>
    simp only [step] at hyield
    split_ifs at hyield <;> simp at hyield
  | HandleEventsState =>
    cases polls with
    | nil => simp [step, pollEvent] at hyield
    | cons e rest =>
      cases e <;> simp [step, pollEvent] at hyield
  | MouseRelativeMoveState dx dy => simp [step] at hyield
  | UpdateState => simp [step] at hyield

/-- Witness for C5: clock 100, `last_update = 50`, size `320x240`;
`ext_dt = 50 / 1e9` and the new `last_frame` is 100. -/
theorem render_ext_dt_nonneg_witness :
    (1 : ℚ) / 20000000 =
      ((100 : ℚ) - (50 : ℚ)) / (billion : ℚ) ∧
    (0 : ℚ) ≤ 1 / 20000000 ∧
    (100 : Nat) = 100 := by
  have h := render_ext_dt_nonneg
    ⟨fun _ => false, fun _ => (320, 240), fun _ => 100⟩
    ⟨⟨.RenderState, 50, 5, 8333333, 16666666, 1 / 120⟩, ⟨0, 0, 0, [], 0, []⟩⟩
    ⟨⟨.SwapBuffersState, 50, 100, 8333333, 16666666, 1 / 120⟩, ⟨1, 1, 1, [], 0, []⟩⟩
    ⟨1 / 20000000, 320, 240⟩
    (by norm_num [step, pollEvent, billion]) (by norm_num)
  exact ⟨h.1, h.2.1, h.2.2⟩

/-- C10: a relative-motion delta lives only in the `MouseRelativeMoveState`
payload and is delivered exactly once: a `HandleEvents` poll returning
`MouseMoved` with a relative delta yields `MouseMove` and stages the delta as
the next state, and the immediately following pull — without touching the
input queue or any other collaborator oracle — yields `MouseRelativeMove`
with exactly that delta and returns to `HandleEvents`, so no later poll can
overwrite an undelivered delta. -/
theorem relative_move_staged_and_delivered (win : Window) (m : Machine)
    (x y dx dy : ℚ) (rest : List InputEvent) (fuel : Nat) :
    (m.it.state = .HandleEventsState →
      m.ws.polls = .MouseMoved x y (some (dx, dy)) :: rest →
      step win m =
        (⟨{ m.it with state := .MouseRelativeMoveState dx dy },
          { m.ws with polls := rest }⟩,
         .yield (.MouseMove { x := x, y := y }))) ∧
    (m.it.state = .MouseRelativeMoveState dx dy →
      nextFuel win (fuel + 1) m =
        (⟨{ m.it with state := .HandleEventsState }, m.ws⟩,
         some (some (.MouseRelativeMove { dx := dx, dy := dy })))) := by
  obtain ⟨⟨st, lu, lf, du, df, dq⟩, n1, n2, n3, polls, sw, sl⟩ := m
  constructor
  · intro hst hq
    replace hst : st = GameIteratorState.HandleEventsState := hst
    replace hq : polls = .MouseMoved x y (some (dx, dy)) :: rest := hq
    subst hst
    subst hq
    simp [step, pollEvent]
  · intro hst
    replace hst : st = GameIteratorState.MouseRelativeMoveState dx dy := hst
    subst hst
    simp [nextFuel, step]

/-- Witness for C10 at a concrete staged delta `(4, 5)`. -/
theorem relative_move_staged_and_delivered_witness :
    step ⟨fun _ => false, fun _ => (320, 240), fun _ => 100⟩
        ⟨⟨.HandleEventsState, 50, 50, 100, 200, 1 / 120⟩,
         ⟨0, 0, 0, [.MouseMoved 1 2 (some (4, 5)), .KeyPressed 9], 0, []⟩⟩ =
      (⟨⟨.MouseRelativeMoveState 4 5, 50, 50, 100, 200, 1 / 120⟩,
        ⟨0, 0, 0, [.KeyPressed 9], 0, []⟩⟩,
       .yield (.MouseMove { x := 1, y := 2 })) ∧
    nextFuel ⟨fun _ => false, fun _ => (320, 240), fun _ => 100⟩ 1
        ⟨⟨.MouseRelativeMoveState 4 5, 50, 50, 100, 200, 1 / 120⟩,
         ⟨0, 0, 0, [.KeyPressed 9], 0, []⟩⟩ =
      (⟨⟨.HandleEventsState, 50, 50, 100, 200, 1 / 120⟩,
        ⟨0, 0, 0, [.KeyPressed 9], 0, []⟩⟩,
       some (some (.MouseRelativeMove { dx := 4, dy := 5 }))) := by
  have h1 := (relative_move_staged_and_delivered
    ⟨fun _ => false, fun _ => (320, 240), fun _ => 100⟩
    ⟨⟨.HandleEventsState, 50, 50, 100, 200, 1 / 120⟩,
     ⟨0, 0, 0, [.MouseMoved 1 2 (some (4, 5)), .KeyPressed 9], 0, []⟩⟩
    1 2 4 5 [.KeyPressed 9] 0).1 rfl rfl
  have h2 := (relative_move_staged_and_delivered
    ⟨fun _ => false, fun _ => (320, 240), fun _ => 100⟩
    ⟨⟨.MouseRelativeMoveState 4 5, 50, 50, 100, 200, 1 / 120⟩,
     ⟨0, 0, 0, [.KeyPressed 9], 0, []⟩⟩
    1 2 4 5 [.KeyPressed 9] 0).2 rfl
  exact ⟨h1, h2⟩

/-- C1 counterexample: the close check does not latch.  With a Window
Collaborator whose `should_close` answers true only to its first query
(size constant `320x240`, clock constant 100), the first pull yields no event
but the second pull yields a `Render` event — the sequence resumes, so a pull
after `should_close()` has returned true is not permanently event-free. -/
theorem close_not_latched_counterexample :
    (nextFuel ⟨fun n => n == 0, fun _ => (320, 240), fun _ => 100⟩ 4
        ⟨⟨.RenderState, 50, 50, 8333333, 16666666, 1 / 120⟩,
         ⟨0, 0, 0, [], 0, []⟩⟩).2 = some none ∧
    (nextFuel ⟨fun n => n == 0, fun _ => (320, 240), fun _ => 100⟩ 4
        (nextFuel ⟨fun n => n == 0, fun _ => (320, 240), fun _ => 100⟩ 4
          ⟨⟨.RenderState, 50, 50, 8333333, 16666666, 1 / 120⟩,
           ⟨0, 0, 0, [], 0, []⟩⟩).1).2 =
      some (some (.Render { ext_dt := 1 / 20000000, width := 320,
                            height := 240 })) := by
  refine ⟨rfl, ?_⟩
  norm_num [nextFuel, step, billion]

/-- C1 (amended): a pull made in the `Render` state whose close query returns
true yields no event and has no other effect: the iterator (its state in
particular) is unchanged and no swap, poll or sleep occurs.  Consequently, as
long as `should_close` keeps answering true to every query from the current
one on, every subsequent pull yields no event — the sequence ends permanently
only under that proviso, since the code does not latch termination and a
later false answer resumes the sequence. -/
theorem close_true_yields_none_forever (win : Window) (fuel n : Nat) :
    ∀ m : Machine, m.it.state = .RenderState →
      (∀ k, m.ws.nClose ≤ k → win.shouldCloseFn k = true) →
      (pullN win (fuel + 1) n m).2 = List.replicate n (some none) ∧
      (pullN win (fuel + 1) n m).1.it = m.it ∧
      (pullN win (fuel + 1) n m).1.ws.swaps = m.ws.swaps ∧
      (pullN win (fuel + 1) n m).1.ws.polls = m.ws.polls ∧
      (pullN win (fuel + 1) n m).1.ws.sleeps = m.ws.sleeps := by
  induction n with
  | zero =>
    intro m h1 h2
    simp [pullN]
  | succ n ih =>
    intro m h1 h2
    obtain ⟨⟨st, lu, lf, du, df, dq⟩, n1, n2, n3, polls, sw, sl⟩ := m
    replace h1 : st = GameIteratorState.RenderState := h1
    subst h1
    have hc : win.shouldCloseFn n1 = true := h2 n1 le_rfl
    have hstep : nextFuel win (fuel + 1)
        ⟨⟨.RenderState, lu, lf, du, df, dq⟩, n1, n2, n3, polls, sw, sl⟩ =
        (⟨⟨.RenderState, lu, lf, du, df, dq⟩, n1 + 1, n2, n3, polls, sw, sl⟩,
         some none) := by
      simp [nextFuel, step, hc]
    have hrest := ih ⟨⟨.RenderState, lu, lf, du, df, dq⟩,
        n1 + 1, n2, n3, polls, sw, sl⟩ rfl
      (fun k hk => h2 k (Nat.le_of_succ_le hk))
    simp only [pullN, hstep]
    refine ⟨?_, hrest.2⟩
    rw [List.replicate_succ]
    exact congrArg _ hrest.1

/-- Witness for C1's amended theorem: with `should_close` constantly true,
three pulls from the `Render` state all yield no event and leave everything
unchanged. -/
theorem close_true_yields_none_forever_witness :
    (pullN ⟨fun _ => true, fun _ => (320, 240), fun _ => 100⟩ 4 3
        ⟨⟨.RenderState, 50, 50, 8333333, 16666666, 1 / 120⟩,
         ⟨0, 0, 0, [.KeyPressed 9], 2, [7]⟩⟩).2 =
      List.replicate 3 (some none) ∧
    (pullN ⟨fun _ => true, fun _ => (320, 240), fun _ => 100⟩ 4 3
        ⟨⟨.RenderState, 50, 50, 8333333, 16666666, 1 / 120⟩,
         ⟨0, 0, 0, [.KeyPressed 9], 2, [7]⟩⟩).1.it =
      ⟨.RenderState, 50, 50, 8333333, 16666666, 1 / 120⟩ ∧
    (pullN ⟨fun _ => true, fun _ => (320, 240), fun _ => 100⟩ 4 3
        ⟨⟨.RenderState, 50, 50, 8333333, 16666666, 1 / 120⟩,
         ⟨0, 0, 0, [.KeyPressed 9], 2, [7]⟩⟩).1.ws.swaps = 2 ∧
    (pullN ⟨fun _ => true, fun _ => (320, 240), fun _ => 100⟩ 4 3
        ⟨⟨.RenderState, 50, 50, 8333333, 16666666, 1 / 120⟩,
         ⟨0, 0, 0, [.KeyPressed 9], 2, [7]⟩⟩).1.ws.polls = [.KeyPressed 9] ∧
    (pullN ⟨fun _ => true, fun _ => (320, 240), fun _ => 100⟩ 4 3
        ⟨⟨.RenderState, 50, 50, 8333333, 16666666, 1 / 120⟩,
         ⟨0, 0, 0, [.KeyPressed 9], 2, [7]⟩⟩).1.ws.sleeps = [7] := by
  have h := close_true_yields_none_forever
    ⟨fun _ => true, fun _ => (320, 240), fun _ => 100⟩ 3 3
    ⟨⟨.RenderState, 50, 50, 8333333, 16666666, 1 / 120⟩,
     ⟨0, 0, 0, [.KeyPressed 9], 2, [7]⟩⟩
    rfl (fun _ _ => rfl)
  exact h

/-- Unfolding lemma: one pull followed by the remaining pulls. -/
lemma pullN_succ (win : Window) (fuel n : Nat) (m : Machine) :
    pullN win fuel (n + 1) m =
      ((pullN win fuel n (nextFuel win fuel m).1).1,
       (nextFuel win fuel m).2 :: (pullN win fuel n (nextFuel win fuel m).1).2) :=
  rfl

/-- A pull whose first inner step yields returns that event, with any
positive fuel. -/
lemma nextFuel_yield1 (win : Window) (m m2 : Machine) (e : GameEvent)
    (fuel : Nat) (hfuel : 1 ≤ fuel) (h : step win m = (m2, .yield e)) :
    nextFuel win fuel m = (m2, some (some e)) := by
  cases fuel with
  | zero => omega
  | succ f => simp [nextFuel, h]

/-- A pull whose first inner step falls through and whose second yields
returns that event, with fuel at least 2. -/
lemma nextFuel_cont_yield (win : Window) (m m1 m2 : Machine) (e : GameEvent)
    (fuel : Nat) (hfuel : 2 ≤ fuel) (h1 : step win m = (m1, .cont))
    (h2 : step win m1 = (m2, .yield e)) :
    nextFuel win fuel m = (m2, some (some e)) := by
  cases fuel with
  | zero => omega
  | succ f =>
    cases f with
    | zero => omega
    | succ f2 => simp [nextFuel, h1, h2]

/-- Running `n` fine steps preserves the derived timing constants. -/
lemma stepRun_preserves_consts (win : Window) (n : Nat) : ∀ m : Machine,
    (stepRun win n m).1.it.dt_update_in_ns = m.it.dt_update_in_ns ∧
    (stepRun win n m).1.it.dt_frame_in_ns = m.it.dt_frame_in_ns ∧
    (stepRun win n m).1.it.dt = m.it.dt := by
  induction n with
  | zero => intro m; exact ⟨rfl, rfl, rfl⟩
  | succ n ih =>
    intro m
    have hstep := step_preserves_consts win m
    have hrest := ih (step win m).1
    simp only [stepRun]
    exact ⟨hrest.1.trans hstep.1, hrest.2.1.trans hstep.2.1,
           hrest.2.2.trans hstep.2.2⟩

/-- After any number of fine steps, `last_update` has advanced from its
starting value by a whole number of `dt_update_in_ns` intervals. -/
lemma stepRun_last_update_multiple (win : Window) (n : Nat) : ∀ m : Machine,
    ∃ k, (stepRun win n m).1.it.last_update =
      m.it.last_update + k * m.it.dt_update_in_ns := by
  induction n with
  | zero => intro m; exact ⟨0, by simp [stepRun]⟩
  | succ n ih =>
    intro m
    obtain ⟨k, hk⟩ := ih (step win m).1
    have hdu := (step_preserves_consts win m).1
    have hgoal : (stepRun win (n + 1) m).1 = (stepRun win n (step win m).1).1 :=
      rfl
    rcases step_last_update_dichotomy win m with ⟨hsame, _⟩ | ⟨hadd, _⟩
    · exact ⟨k, by rw [hgoal, hk, hdu, hsame]⟩
    · refine ⟨k + 1, ?_⟩
      rw [hgoal, hk, hdu, hadd]
      ring
/-- Every `Update` event collected along a fine-step run carries the
machine's starting `dt`. -/
lemma stepRun_update_dt (win : Window) (n : Nat) : ∀ (m : Machine)
    (a : UpdateArgs), .Update a ∈ (stepRun win n m).2 → a.dt = m.it.dt := by
  induction n with
  | zero => intro m a h; simp [stepRun] at h
  | succ n ih =>
    intro m a h
    have hdt := (step_preserves_consts win m).2.2
    simp only [stepRun, List.mem_append] at h
    rcases h with h | h
    · rcases hstep : (step win m).2 with _ | e | _
      · rw [hstep] at h; simp at h
      · rw [hstep] at h
        simp only [List.mem_singleton] at h
        subst h
        rcases step_last_update_dichotomy win m with ⟨_, hne⟩ | ⟨_, heq⟩
        · exact absurd hstep (hne a)
        · rw [hstep] at heq
          obtain rfl : a = { dt := m.it.dt } := by
            have := StepResult.yield.injEq .. ▸ heq
            have := GameEvent.Update.injEq .. ▸ this
            exact this
          rfl
      · rw [hstep] at h; simp at h
    · exact (ih (step win m).1 a h).trans hdt

/-- C4: for a configuration with `updates_per_second = U > 0`, `last_update`
always equals its initial value (`start`) plus a whole-number multiple of
`update_interval_ns = billion / U`, and it changes exactly when an `Update`
event is yielded, by exactly one interval — so consecutive `Update` events'
`last_update` values differ by exactly `billion / U`, and `last_update` is
never snapped to the wall clock. -/
theorem update_timestamps_fixed_multiples (win : Window)
    (s : GameIteratorSettings) (start : Nat) (it0 : GameIterator)
    (ws0 : WState) (n : Nat)
    (hnew : GameIterator.new s start = some it0) :
    (∃ k, (stepRun win n ⟨it0, ws0⟩).1.it.last_update =
        start + k * (billion / s.updates_per_second)) ∧
    (∀ m : Machine, ∀ a : UpdateArgs, (step win m).2 = .yield (.Update a) →
        (step win m).1.it.last_update =
          m.it.last_update + m.it.dt_update_in_ns) ∧
    (∀ m : Machine, (∀ a : UpdateArgs, (step win m).2 ≠ .yield (.Update a)) →
        (step win m).1.it.last_update = m.it.last_update) := by
  have hfields : it0.last_update = start ∧
      it0.dt_update_in_ns = billion / s.updates_per_second := by
    by_cases hz : s.updates_per_second = 0 ∨ s.max_frames_per_second = 0
    · simp [GameIterator.new, hz] at hnew
    · simp only [GameIterator.new, if_neg hz, Option.some.injEq] at hnew
      rw [← hnew]
      exact ⟨rfl, rfl⟩
  refine ⟨?_, ?_, ?_⟩
  · obtain ⟨k, hk⟩ := stepRun_last_update_multiple win n ⟨it0, ws0⟩
    exact ⟨k, by rw [hk]; rw [show (⟨it0, ws0⟩ : Machine).it = it0 from rfl,
      hfields.1, hfields.2]⟩
  · intro m a h
    rcases step_last_update_dichotomy win m with ⟨_, hne⟩ | ⟨hadd, _⟩
    · exact absurd h (hne a)
    · exact hadd
  · intro m hno
    rcases step_last_update_dichotomy win m with ⟨hsame, _⟩ | ⟨_, heq⟩
    · exact hsame
    · exact absurd heq (hno { dt := m.it.dt })

/-- Witness for C4 at `updates_per_second = 120`, `max_frames_per_second =
60`, `start = 0`, over 7 fine steps. -/
theorem update_timestamps_fixed_multiples_witness :
    (∃ k, (stepRun ⟨fun _ => false, fun _ => (320, 240), fun _ => 100⟩ 7
        ⟨⟨.RenderState, 0, 0, 8333333, 16666666, 1 / 120⟩,
         ⟨0, 0, 0, [], 0, []⟩⟩).1.it.last_update =
        0 + k * (billion / 120)) ∧
    (∀ m : Machine, ∀ a : UpdateArgs,
        (step ⟨fun _ => false, fun _ => (320, 240), fun _ => 100⟩ m).2 =
          .yield (.Update a) →
        (step ⟨fun _ => false, fun _ => (320, 240), fun _ => 100⟩ m).1.it.last_update =
          m.it.last_update + m.it.dt_update_in_ns) ∧
    (∀ m : Machine,
        (∀ a : UpdateArgs,
          (step ⟨fun _ => false, fun _ => (320, 240), fun _ => 100⟩ m).2 ≠
            .yield (.Update a)) →
        (step ⟨fun _ => false, fun _ => (320, 240), fun _ => 100⟩ m).1.it.last_update =
          m.it.last_update) := by
  exact update_timestamps_fixed_multiples
    ⟨fun _ => false, fun _ => (320, 240), fun _ => 100⟩ ⟨120, 60⟩ 0
    ⟨.RenderState, 0, 0, 8333333, 16666666, 1 / 120⟩ ⟨0, 0, 0, [], 0, []⟩ 7
    (by norm_num [GameIterator.new, billion])

/-- C8: for a fixed configuration with `updates_per_second = U > 0`, the
constructed `dt` is exactly `1 / U` seconds; no step changes it, every
yielded `Update` event carries exactly the stepping machine's `dt`, and hence
every `Update` event collected along any run from the constructed iterator
carries exactly `1 / U` — never a measured wall-clock delta. -/
theorem update_dt_constant (win : Window) (s : GameIteratorSettings)
    (start : Nat) (it0 : GameIterator) (ws0 : WState)
    (hnew : GameIterator.new s start = some it0) :
    it0.dt = 1 / (s.updates_per_second : ℚ) ∧
    (∀ n : Nat, ∀ a : UpdateArgs,
        .Update a ∈ (stepRun win n ⟨it0, ws0⟩).2 →
        a.dt = 1 / (s.updates_per_second : ℚ)) ∧
    (∀ m : Machine, (step win m).1.it.dt = m.it.dt) ∧
    (∀ m : Machine, ∀ a : UpdateArgs,
        (step win m).2 = .yield (.Update a) → a.dt = m.it.dt) := by
  have hdt : it0.dt = 1 / (s.updates_per_second : ℚ) := by
    by_cases hz : s.updates_per_second = 0 ∨ s.max_frames_per_second = 0
    · simp [GameIterator.new, hz] at hnew
    · simp only [GameIterator.new, if_neg hz, Option.some.injEq] at hnew
      rw [← hnew, one_div]
  refine ⟨hdt, ?_, ?_, ?_⟩
  · intro n a h
    exact (stepRun_update_dt win n ⟨it0, ws0⟩ a h).trans hdt
  · intro m
    exact (step_preserves_consts win m).2.2
  · intro m a h
    rcases step_last_update_dichotomy win m with ⟨_, hne⟩ | ⟨_, heq⟩
    · exact absurd h (hne a)
    · rw [h] at heq
      have := StepResult.yield.injEq .. ▸ heq
      have := GameEvent.Update.injEq .. ▸ this
      rw [this]

/-- Witness for C8 at `updates_per_second = 120`, `max_frames_per_second =
60`. -/
theorem update_dt_constant_witness :
    (⟨.RenderState, 0, 0, 8333333, 16666666, 1 / 120⟩ : GameIterator).dt =
      1 / ((120 : Nat) : ℚ) ∧
    (∀ n : Nat, ∀ a : UpdateArgs,
        .Update a ∈ (stepRun ⟨fun _ => false, fun _ => (320, 240), fun _ => 100⟩
          n ⟨⟨.RenderState, 0, 0, 8333333, 16666666, 1 / 120⟩,
             ⟨0, 0, 0, [], 0, []⟩⟩).2 →
        a.dt = 1 / ((120 : Nat) : ℚ)) := by
  have h := update_dt_constant
    ⟨fun _ => false, fun _ => (320, 240), fun _ => 100⟩ ⟨120, 60⟩ 0
    ⟨.RenderState, 0, 0, 8333333, 16666666, 1 / 120⟩ ⟨0, 0, 0, [], 0, []⟩
    (by norm_num [GameIterator.new, billion])
  exact ⟨h.1, h.2.1⟩

/-- From `HandleEvents` with pending queue `q` (which contains no explicit
`NoEvent` sentinel), the next `(expandQueue q).length + 1` pulls emit exactly
the expansions of the queued inputs in poll order, followed by one `Update`
event. -/
lemma drain_pulls (win : Window) :
    ∀ (q : List InputEvent) (lu lf du df : Nat) (dq : ℚ)
      (n1 n2 n3 : Nat) (sw : Nat) (sl : List Int),
      InputEvent.NoEvent ∉ q →
      (pullN win 2 ((expandQueue q).length + 1)
          ⟨⟨.HandleEventsState, lu, lf, du, df, dq⟩,
           n1, n2, n3, q, sw, sl⟩).2 =
        (expandQueue q).map (fun e => some (some e)) ++
          [some (some (.Update { dt := dq }))] := by
  intro q
  induction q with
  | nil =>
    intro lu lf du df dq n1 n2 n3 sw sl hq
    have h1 : step win ⟨⟨.HandleEventsState, lu, lf, du, df, dq⟩,
        n1, n2, n3, [], sw, sl⟩ =
        (⟨⟨.UpdateState, lu, lf, du, df, dq⟩, n1, n2, n3, [], sw, sl⟩,
         .cont) := rfl
    have h2 : step win ⟨⟨.UpdateState, lu, lf, du, df, dq⟩,
        n1, n2, n3, [], sw, sl⟩ =
        (⟨⟨.UpdateLoopState, lu + du, lf, du, df, dq⟩, n1, n2, n3, [], sw, sl⟩,
         .yield (.Update { dt := dq })) := rfl
    rw [pullN_succ, nextFuel_cont_yield win _ _ _ _ 2 le_rfl h1 h2]
    simp [pullN, expandQueue]
  | cons e rest ih =>
    intro lu lf du df dq n1 n2 n3 sw sl hq
    have hq1 : e ≠ InputEvent.NoEvent := fun h =>
      hq (h ▸ List.mem_cons_self e rest)
    have hq2 : InputEvent.NoEvent ∉ rest := fun h =>
      hq (List.mem_cons_of_mem _ h)
    cases e with
    | NoEvent => exact absurd rfl hq1
    | KeyPressed k =>
      have h1 : step win ⟨⟨.HandleEventsState, lu, lf, du, df, dq⟩,
          n1, n2, n3, .KeyPressed k :: rest, sw, sl⟩ =
          (⟨⟨.HandleEventsState, lu, lf, du, df, dq⟩,
            n1, n2, n3, rest, sw, sl⟩,
           .yield (.KeyPress { key := k })) := rfl
      rw [show (expandQueue (.KeyPressed k :: rest)).length + 1
          = ((expandQueue rest).length + 1) + 1 by
        simp [expandQueue, expandInput]]
      rw [pullN_succ, nextFuel_yield1 win _ _ _ 2 (by norm_num) h1]
      dsimp only
      rw [ih lu lf du df dq n1 n2 n3 sw sl hq2]
      simp [expandQueue, expandInput]
    | KeyReleased k =>
      have h1 : step win ⟨⟨.HandleEventsState, lu, lf, du, df, dq⟩,
          n1, n2, n3, .KeyReleased k :: rest, sw, sl⟩ =
          (⟨⟨.HandleEventsState, lu, lf, du, df, dq⟩,
            n1, n2, n3, rest, sw, sl⟩,
           .yield (.KeyRelease { key := k })) := rfl
      rw [show (expandQueue (.KeyReleased k :: rest)).length + 1
          = ((expandQueue rest).length + 1) + 1 by
        simp [expandQueue, expandInput]]
      rw [pullN_succ, nextFuel_yield1 win _ _ _ 2 (by norm_num) h1]
      dsimp only
      rw [ih lu lf du df dq n1 n2 n3 sw sl hq2]
      simp [expandQueue, expandInput]
    | MouseButtonPressed b =>
      have h1 : step win ⟨⟨.HandleEventsState, lu, lf, du, df, dq⟩,
          n1, n2, n3, .MouseButtonPressed b :: rest, sw, sl⟩ =
          (⟨⟨.HandleEventsState, lu, lf, du, df, dq⟩,
            n1, n2, n3, rest, sw, sl⟩,
           .yield (.MousePress { button := b })) := rfl
      rw [show (expandQueue (.MouseButtonPressed b :: rest)).length + 1
          = ((expandQueue rest).length + 1) + 1 by
        simp [expandQueue, expandInput]]
      rw [pullN_succ, nextFuel_yield1 win _ _ _ 2 (by norm_num) h1]
      dsimp only
      rw [ih lu lf du df dq n1 n2 n3 sw sl hq2]
      simp [expandQueue, expandInput]
    | MouseButtonReleased b =>
      have h1 : step win ⟨⟨.HandleEventsState, lu, lf, du, df, dq⟩,
          n1, n2, n3, .MouseButtonReleased b :: rest, sw, sl⟩ =
          (⟨⟨.HandleEventsState, lu, lf, du, df, dq⟩,
            n1, n2, n3, rest, sw, sl⟩,
           .yield (.MouseRelease { button := b })) := rfl
      rw [show (expandQueue (.MouseButtonReleased b :: rest)).length + 1
          = ((expandQueue rest).length + 1) + 1 by
        simp [expandQueue, expandInput]]
      rw [pullN_succ, nextFuel_yield1 win _ _ _ 2 (by norm_num) h1]
      dsimp only
      rw [ih lu lf du df dq n1 n2 n3 sw sl hq2]
      simp [expandQueue, expandInput]
    | MouseScrolled x y =>
      have h1 : step win ⟨⟨.HandleEventsState, lu, lf, du, df, dq⟩,
          n1, n2, n3, .MouseScrolled x y :: rest, sw, sl⟩ =
          (⟨⟨.HandleEventsState, lu, lf, du, df, dq⟩,
            n1, n2, n3, rest, sw, sl⟩,
           .yield (.MouseScroll { x := x, y := y })) := rfl
      rw [show (expandQueue (.MouseScrolled x y :: rest)).length + 1
          = ((expandQueue rest).length + 1) + 1 by
        simp [expandQueue, expandInput]]
      rw [pullN_succ, nextFuel_yield1 win _ _ _ 2 (by norm_num) h1]
      dsimp only
      rw [ih lu lf du df dq n1 n2 n3 sw sl hq2]
      simp [expandQueue, expandInput]
    | MouseMoved x y r =>
      cases r with
      | none =>
        have h1 : step win ⟨⟨.HandleEventsState, lu, lf, du, df, dq⟩,
            n1, n2, n3, .MouseMoved x y none :: rest, sw, sl⟩ =
            (⟨⟨.HandleEventsState, lu, lf, du, df, dq⟩,
              n1, n2, n3, rest, sw, sl⟩,
             .yield (.MouseMove { x := x, y := y })) := rfl
        rw [show (expandQueue (.MouseMoved x y none :: rest)).length + 1
            = ((expandQueue rest).length + 1) + 1 by
          simp [expandQueue, expandInput]]
        rw [pullN_succ, nextFuel_yield1 win _ _ _ 2 (by norm_num) h1]
        dsimp only
        rw [ih lu lf du df dq n1 n2 n3 sw sl hq2]
        simp [expandQueue, expandInput]
      | some d =>
        have h1 : step win ⟨⟨.HandleEventsState, lu, lf, du, df, dq⟩,
            n1, n2, n3, .MouseMoved x y (some d) :: rest, sw, sl⟩ =
            (⟨⟨.MouseRelativeMoveState d.1 d.2, lu, lf, du, df, dq⟩,
              n1, n2, n3, rest, sw, sl⟩,
             .yield (.MouseMove { x := x, y := y })) := rfl
        have h2 : step win ⟨⟨.MouseRelativeMoveState d.1 d.2,
            lu, lf, du, df, dq⟩, n1, n2, n3, rest, sw, sl⟩ =
            (⟨⟨.HandleEventsState, lu, lf, du, df, dq⟩,
              n1, n2, n3, rest, sw, sl⟩,
             .yield (.MouseRelativeMove { dx := d.1, dy := d.2 })) := rfl
        rw [show (expandQueue (.MouseMoved x y (some d) :: rest)).length + 1
            = (((expandQueue rest).length + 1) + 1) + 1 by
          simp [expandQueue, expandInput]]
        rw [pullN_succ, nextFuel_yield1 win _ _ _ 2 (by norm_num) h1]
        dsimp only
        rw [pullN_succ, nextFuel_yield1 win _ _ _ 2 (by norm_num) h2]
        dsimp only
        rw [ih lu lf du df dq n1 n2 n3 sw sl hq2]
        simp [expandQueue, expandInput]

/-- C6: every queued input notification is emitted, one event per pull and in
poll order, strictly before the next `Update` event: from `HandleEvents` with
pending queue `q`, the next `(expandQueue q).length + 1` pulls yield exactly
the queue's events followed by a single `Update`; moreover the only
transition into the `Update` state is from `HandleEvents` on a poll that
returns the `NoEvent` sentinel. -/
theorem input_drained_before_update (win : Window) (it : GameIterator)
    (ws : WState) (q : List InputEvent)
    (hstate : it.state = .HandleEventsState) (hpolls : ws.polls = q)
    (hq : InputEvent.NoEvent ∉ q) :
    (pullN win 2 ((expandQueue q).length + 1) ⟨it, ws⟩).2 =
      (expandQueue q).map (fun e => some (some e)) ++
        [some (some (.Update { dt := it.dt }))] ∧
    (∀ m : Machine, (step win m).1.it.state = .UpdateState →
        m.it.state = .HandleEventsState ∧ (pollEvent m.ws).1 = .NoEvent) := by
  constructor
  · obtain ⟨st, lu, lf, du, df, dq⟩ := it
    obtain ⟨n1, n2, n3, polls, sw, sl⟩ := ws
    replace hstate : st = GameIteratorState.HandleEventsState := hstate
    subst hstate
    replace hpolls : polls = q := hpolls
    subst hpolls
    exact drain_pulls win polls lu lf du df dq n1 n2 n3 sw sl hq
  · intro m hst
    obtain ⟨⟨st, lu, lf, du, df, dq⟩, n1, n2, n3, polls, sw, sl⟩ := m
    cases st with
    | RenderState =>
      exfalso
      simp only [step] at hst
      split_ifs at hst
    | SwapBuffersState => exfalso; simp [step] at hst
    | UpdateLoopState =>
      exfalso
      simp only [step] at hst
      split_ifs at hst
    | HandleEventsState =>
      cases polls with
      | nil => exact ⟨rfl, rfl⟩
      | cons e rest =>
        cases e with
        | NoEvent => exact ⟨rfl, rfl⟩
        | KeyPressed k => exfalso; simp [step, pollEvent] at hst
        | KeyReleased k => exfalso; simp [step, pollEvent] at hst
        | MouseButtonPressed b => exfalso; simp [step, pollEvent] at hst
        | MouseButtonReleased b => exfalso; simp [step, pollEvent] at hst
        | MouseScrolled x y => exfalso; simp [step, pollEvent] at hst
        | MouseMoved x y r =>
          exfalso
          cases r <;> simp [step, pollEvent] at hst
    | MouseRelativeMoveState dx dy => exfalso; simp [step] at hst
    | UpdateState => exfalso; simp [step] at hst

/-- Witness for C6: queue `[KeyPressed 3, MouseMoved 1 2 (some (4, 5))]` is
drained as `KeyPress, MouseMove, MouseRelativeMove` and only then `Update`. -/
theorem input_drained_before_update_witness :
    (pullN ⟨fun _ => false, fun _ => (320, 240), fun _ => 100⟩ 2 4
        ⟨⟨.HandleEventsState, 50, 50, 8333333, 16666666, 1 / 120⟩,
         ⟨0, 0, 0, [.KeyPressed 3, .MouseMoved 1 2 (some (4, 5))], 0, []⟩⟩).2 =
      [some (some (.KeyPress { key := 3 })),
       some (some (.MouseMove { x := 1, y := 2 })),
       some (some (.MouseRelativeMove { dx := 4, dy := 5 })),
       some (some (.Update { dt := 1 / 120 }))] ∧
    ((⟨⟨.HandleEventsState, 50, 50, 8333333, 16666666, 1 / 120⟩,
       ⟨0, 0, 0, [], 0, []⟩⟩ : Machine).it.state = .HandleEventsState ∧
     (pollEvent (⟨⟨.HandleEventsState, 50, 50, 8333333, 16666666, 1 / 120⟩,
       ⟨0, 0, 0, [], 0, []⟩⟩ : Machine).ws).1 = .NoEvent) := by
  have h := input_drained_before_update
    ⟨fun _ => false, fun _ => (320, 240), fun _ => 100⟩
    ⟨.HandleEventsState, 50, 50, 8333333, 16666666, 1 / 120⟩
    ⟨0, 0, 0, [.KeyPressed 3, .MouseMoved 1 2 (some (4, 5))], 0, []⟩
    [.KeyPressed 3, .MouseMoved 1 2 (some (4, 5))] rfl rfl (by decide)
  refine ⟨?_, ?_⟩
  · rw [show (4 : Nat) =
      (expandQueue [.KeyPressed 3, .MouseMoved 1 2 (some (4, 5))]).length + 1 by
        simp [expandQueue, expandInput]]
    rw [h.1]
    simp [expandQueue, expandInput]
  · exact h.2 ⟨⟨.HandleEventsState, 50, 50, 8333333, 16666666, 1 / 120⟩,
      ⟨0, 0, 0, [], 0, []⟩⟩ rfl
